import Mathlib

/-!
# Blockcrawl: transaction-to-graph pipeline, verified model

Shallow embedding of the Blockcrawl transaction-to-graph transformation and
metadata-enrichment pipeline:

* `src/pages/api/transactions.js` — time filter, graph builder
  (`processTransactions`, `processTokenTransfer`, `processNativeTransfer`,
  `addNodeIfNeeded`, `getTransactionType`, `formatAddress`),
  token-metadata enhancement (`enhanceTokenMetadata`);
* `src/unnamed/part_006` (EntityIdentifier) — static registry
  (`knownEntities`, `findKnownEntity`) and cascading entity resolution
  (`getEntityInfo`, `cacheEntityInfo`);
* `src/lib/ratelimit.js` — `checkRateLimit`.

JavaScript-specific semantics (truthiness of possibly-`undefined` values,
`||` returning the first truthy operand, strict `===` against `undefined`)
are made explicit through `Option`-valued fields and the helpers below.
Network collaborators (entity lookup services, the token-metadata endpoint,
the Redis cache) are modelled as pure oracle functions passed in as
parameters; the lists of addresses/mints handed to them model the outbound
calls. Purely presentational derived data (icon/colour lookup tables,
debug logging, wall-clock measurements) is not modelled.
-/

/-- JS truthiness of a possibly-undefined string: `undefined` and `""` are
falsy, every other string is truthy. -/
def truthyS : Option String → Bool
  | some s => !s.isEmpty
  | none => false

/-- JS strict equality `x === a` between a possibly-undefined string `x` and
a definite string `a` (`undefined === a` is `false`). -/
def oEqS (x : Option String) (a : String) : Bool :=
  match x with
  | some s => s == a
  | none => false

/-- JS `a || b` on possibly-undefined strings: returns `a` when truthy,
otherwise `b`. -/
def jsOrS (a b : Option String) : Option String :=
  if truthyS a then a else b

/-- JS truthiness of a possibly-undefined number: `undefined` and `0` are
falsy. -/
def truthyQ : Option ℚ → Bool
  | some q => q != 0
  | none => false

/-- JS `a || b` on possibly-undefined numbers. -/
def jsOrQ (a b : Option ℚ) : Option ℚ :=
  if truthyQ a then a else b

/-- The `transfer.uiTokenAmount` sub-object of a Helius transfer record. -/
structure UiTokenAmount where
  uiAmount : Option ℚ
  decimals : Option ℚ
  deriving DecidableEq, Repr

/-- A raw transfer record as consumed by the graph builder.  The same record
shape is used for entries of `tokenTransfers`, `nativeTransfers` and the
alternate `transfers` array (JS objects are untyped; absent fields are
`none`).  `jsType` embeds the `transfer.type` tag checked by the
alternate-shape branch. -/
structure Transfer where
  fromUserAccount : Option String
  toUserAccount : Option String
  tokenAmount : Option ℚ
  amount : Option ℚ
  mint : Option String
  tokenSymbol : Option String
  uiTokenAmount : Option UiTokenAmount
  jsType : Option String
  deriving DecidableEq, Repr

/-- An entry of a transaction's `accountData` array. -/
structure AccountEntry where
  account : Option String
  deriving DecidableEq, Repr

/-- A raw Helius transaction record (the fields the pipeline reads). -/
structure Tx where
  signature : Option String
  timestamp : Option Int
  tokenTransfers : Option (List Transfer)
  nativeTransfers : Option (List Transfer)
  transfers : Option (List Transfer)
  accountData : Option (List AccountEntry)
  deriving DecidableEq, Repr

/-- An entity annotation produced by the EntityIdentifier
(`{name, type, description, source}`; the optional `metadata` object carried
by the token-list lookups is not inspected by any property and is elided). -/
structure EntityInfo where
  name : String
  etype : String
  description : String
  source : String
  deriving DecidableEq, Repr

/-- Token metadata attached to edges / returned per mint (union of the field
shapes written by `processTransactions` and `enhanceTokenMetadata`). -/
structure TokenMetaInfo where
  symbol : Option String
  name : Option String
  decimals : Option ℚ
  supply : Option ℚ
  collection : Option String
  deriving DecidableEq, Repr

/-- A graph node (`WalletNode`): built by `processTransactions` /
`addNodeIfNeeded`, optionally annotated with entity info afterwards. -/
structure Node where
  id : String
  label : String
  ntype : String
  size : ℕ
  entity : Option EntityInfo := none
  deriving DecidableEq, Repr

/-- A graph edge (`TransferEdge`).  Fields that only token edges carry are
`Option`-valued (`none` on native edges, mirroring absent JS fields);
`tokenName`/`tokenLogo`/`tokenMetadata` are written by the enrichment
stages. -/
structure Edge where
  id : String
  source : String
  target : String
  etype : String
  amount : ℚ
  mint : Option String := none
  signature : Option String := none
  timestamp : Option Int := none
  tokenSymbol : Option String := none
  uiAmount : Option ℚ := none
  decimals : Option ℚ := none
  isDirectTransfer : Option Bool := none
  isRelatedTransfer : Option Bool := none
  tokenName : Option String := none
  tokenLogo : Option String := none
  tokenMetadata : Option TokenMetaInfo := none
  deriving DecidableEq, Repr

/-- Embeds `formatAddress`: `addr.slice(0,4) + '...' + addr.slice(-4)`, empty for a
falsy address. -/
def formatAddress (address : String) : String :=
  if address.isEmpty then ""
  else address.take 4 ++ "..." ++ address.takeRight 4

/-- Embeds `getTransactionType`: NFT when the raw token amount is exactly 1 or the
UI amount is exactly 1, otherwise SPL_TOKEN. -/
def getTransactionType (transfer : Transfer) : String :=
  if transfer.tokenAmount == some 1 ||
      (transfer.uiTokenAmount.bind UiTokenAmount.uiAmount) == some 1 then
    "NFT"
  else
    "SPL_TOKEN"

/-- Embeds `addNodeIfNeeded`: append a Connected ("wallet") node for a truthy
address that is neither the input address nor already present. -/
def addNodeIfNeeded (address : Option String) (nodes : List Node)
    (inputAddress : String) : List Node :=
  match address with
  | none => nodes
  | some s =>
      if !s.isEmpty && s != inputAddress && !(nodes.any (fun n => n.id == s)) then
        nodes ++ [{ id := s, label := formatAddress s, ntype := "wallet", size := 40 }]
      else
        nodes

/-- The Input node created for the queried address. -/
def inputNode (inputAddress : String) : Node :=
  { id := inputAddress, label := formatAddress inputAddress, ntype := "input", size := 60 }

/-- Embeds `isInputInTransaction`: the queried address appears in the transaction's
`accountData` list (`tx.accountData?.some(acc => acc.account === input)`). -/
def isInInputTransaction (tx : Tx) (inputAddress : String) : Bool :=
  match tx.accountData with
  | some l => l.any (fun acc => oEqS acc.account inputAddress)
  | none => false

/-- Embeds `processTokenTransfer`: append nodes/edge for one token transfer.  An
edge is recorded when the queried address is an endpoint (`isInputInvolved`)
or merely co-occurs in the transaction's account list
(`isInputInTransaction`), and both endpoints are truthy. -/
def processTokenTransfer (transfer : Transfer) (tx : Tx) (txIndex transferIndex : ℕ)
    (nodes : List Node) (edges : List Edge) (inputAddress : String) :
    List Node × List Edge :=
  let fromAddress := transfer.fromUserAccount
  let toAddress := transfer.toUserAccount
  let isInputInvolved := oEqS fromAddress inputAddress || oEqS toAddress inputAddress
  let isInputInTransaction := isInInputTransaction tx inputAddress
  if isInputInvolved || isInputInTransaction then
    let nodes1 := addNodeIfNeeded fromAddress nodes inputAddress
    let nodes2 := addNodeIfNeeded toAddress nodes1 inputAddress
    if truthyS fromAddress && truthyS toAddress then
      let fa := fromAddress.getD ""
      let ta := toAddress.getD ""
      (nodes2, edges ++ [{
        id := fa ++ "-" ++ ta ++ "-" ++ toString txIndex ++ "-" ++ toString transferIndex,
        source := fa,
        target := ta,
        etype := getTransactionType transfer,
        amount := (jsOrQ transfer.tokenAmount (some 0)).getD 0,
        mint := transfer.mint,
        signature := tx.signature,
        timestamp := tx.timestamp,
        tokenSymbol := some ((jsOrS transfer.tokenSymbol (some "Unknown")).getD "Unknown"),
        uiAmount := jsOrQ (transfer.uiTokenAmount.bind UiTokenAmount.uiAmount) transfer.tokenAmount,
        decimals := some ((jsOrQ (transfer.uiTokenAmount.bind UiTokenAmount.decimals) (some 0)).getD 0),
        isDirectTransfer := some isInputInvolved,
        isRelatedTransfer := some (isInputInTransaction && !isInputInvolved) }])
    else
      (nodes2, edges)
  else
    (nodes, edges)

/-- Embeds `processNativeTransfer`: append nodes/edge for one native SOL transfer;
only transfers with the queried address as an endpoint are kept. -/
def processNativeTransfer (transfer : Transfer) (tx : Tx) (txIndex transferIndex : ℕ)
    (nodes : List Node) (edges : List Edge) (inputAddress : String) :
    List Node × List Edge :=
  let fromAddress := transfer.fromUserAccount
  let toAddress := transfer.toUserAccount
  if oEqS fromAddress inputAddress || oEqS toAddress inputAddress then
    let nodes1 := addNodeIfNeeded fromAddress nodes inputAddress
    let nodes2 := addNodeIfNeeded toAddress nodes1 inputAddress
    if truthyS fromAddress && truthyS toAddress then
      let fa := fromAddress.getD ""
      let ta := toAddress.getD ""
      (nodes2, edges ++ [{
        id := fa ++ "-" ++ ta ++ "-" ++ toString txIndex ++ "-" ++ toString transferIndex,
        source := fa,
        target := ta,
        etype := "SOL",
        amount := (jsOrQ transfer.amount (some 0)).getD 0,
        signature := tx.signature,
        timestamp := tx.timestamp }])
    else
      (nodes2, edges)
  else
    (nodes, edges)

/-- Truthiness of `tx.tokenTransfers && tx.tokenTransfers.length > 0`. -/
def hasTokenTransfers (tx : Tx) : Bool :=
  match tx.tokenTransfers with
  | some l => !l.isEmpty
  | none => false

/-- Truthiness of `tx.nativeTransfers && tx.nativeTransfers.length > 0`. -/
def hasNativeTransfers (tx : Tx) : Bool :=
  match tx.nativeTransfers with
  | some l => !l.isEmpty
  | none => false

/-- Mutable state threaded through the `transactions.forEach` loop of
`processTransactions`. -/
structure BuildState where
  nodes : List Node
  edges : List Edge
  hasTransfers : Bool
  deriving DecidableEq, Repr

/-- One iteration of the `transactions.forEach` loop: skip transactions with
no transfers; otherwise dispatch token transfers, else native transfers,
else the alternate-shape fallback (unreachable under the guard, embedded for
fidelity); finally the broad-capture pass over `accountData`. -/
def processOneTx (inputAddress : String) (st : BuildState) (txIndex : ℕ) (tx : Tx) :
    BuildState :=
  let hasTok := hasTokenTransfers tx
  let hasNat := hasNativeTransfers tx
  if !hasTok && !hasNat then st
  else
    let pe : List Node × List Edge :=
      if hasTok then
        (tx.tokenTransfers.getD []).enum.foldl
          (fun p ti => processTokenTransfer ti.2 tx txIndex ti.1 p.1 p.2 inputAddress)
          (st.nodes, st.edges)
      else if hasNat then
        (tx.nativeTransfers.getD []).enum.foldl
          (fun p ti => processNativeTransfer ti.2 tx txIndex ti.1 p.1 p.2 inputAddress)
          (st.nodes, st.edges)
      else
        let p1 := match tx.transfers with
          | some l => l.enum.foldl
              (fun p ti =>
                if oEqS ti.2.jsType "token" || truthyS ti.2.mint then
                  processTokenTransfer ti.2 tx txIndex ti.1 p.1 p.2 inputAddress
                else if oEqS ti.2.jsType "native" || truthyQ ti.2.amount then
                  processNativeTransfer ti.2 tx txIndex ti.1 p.1 p.2 inputAddress
                else p)
              (st.nodes, st.edges)
          | none => (st.nodes, st.edges)
        let p2 := match tx.tokenTransfers with
          | some l => l.enum.foldl
              (fun p ti => processTokenTransfer ti.2 tx txIndex ti.1 p.1 p.2 inputAddress) p1
          | none => p1
        match tx.nativeTransfers with
          | some l => l.enum.foldl
              (fun p ti => processNativeTransfer ti.2 tx txIndex ti.1 p.1 p.2 inputAddress) p2
          | none => p2
    let nodes2 := match tx.accountData with
      | some l => l.foldl
          (fun acc a =>
            match a.account with
            | some s => if !s.isEmpty && s != inputAddress then
                addNodeIfNeeded (some s) acc inputAddress
              else acc
            | none => acc)
          pe.1
      | none => pe.1
    { nodes := nodes2, edges := pe.2, hasTransfers := true }

/-- The node/edge extraction loop of `processTransactions` (the part before
enrichment): seed the Input node, then fold the transactions in order. -/
def buildGraph (inputAddress : String) (transactions : List Tx) : BuildState :=
  transactions.enum.foldl (fun st p => processOneTx inputAddress st p.1 p.2)
    { nodes := [inputNode inputAddress], edges := [], hasTransfers := false }

/-- The response payload assembled by `processTransactions`.
`resolvedAddresses` and `queriedMints` record the addresses handed to
`entityIdentifier.batchResolveAddresses` and the mints handed to
`entityIdentifier.getTokenMetadata` — i.e. the outbound enrichment
requests. -/
structure Response where
  nodes : List Node
  edges : List Edge
  totalTransactions : ℕ
  entityInfo : List (String × EntityInfo)
  tokenMetadata : List (String × TokenMetaInfo)
  resolvedAddresses : List String
  queriedMints : List String
  deriving DecidableEq, Repr

/-- JS `Set` insertion: first occurrence wins, insertion order kept. -/
def setInsert (acc : List String) (a : String) : List String :=
  if acc.contains a then acc else acc ++ [a]

/-- The set `addressesInTransfers`: sources then targets of every edge, as a Set. -/
def uniqueEdgeAddresses (edges : List Edge) : List String :=
  edges.foldl (fun acc e => setInsert (setInsert acc e.source) e.target) []

/-- The set `uniqueMints`: the truthy mints of the edges, as a Set. -/
def uniqueEdgeMints (edges : List Edge) : List String :=
  edges.foldl
    (fun acc e => if truthyS e.mint then setInsert acc (e.mint.getD "") else acc) []

/-- Association-list lookup, first match wins (JS object property read /
`Map.get`). -/
def lookupA {α : Type} : List (String × α) → String → Option α
  | [], _ => none
  | (k, v) :: t, a => if k == a then some v else lookupA t a

/-- Embeds `entityIdentifier.batchResolveAddresses`, with the per-address resolver
abstracted as the oracle `resolve`: addresses resolving to null are left
out of the result object. -/
def batchResolveAddresses (resolve : String → Option EntityInfo)
    (addresses : List String) : List (String × EntityInfo) :=
  addresses.filterMap (fun a => (resolve a).map (fun e => (a, e)))

/-- The early-exit payload of `processTransactions` (no transaction carried
transfers): just the Input node, no edges, empty maps, no outbound
enrichment requests. -/
def earlyExitResponse (transactions : List Tx) (inputAddress : String) : Response :=
  { nodes := [inputNode inputAddress], edges := [],
    totalTransactions := transactions.length,
    entityInfo := [], tokenMetadata := [],
    resolvedAddresses := [], queriedMints := [] }

/-- Node enhancement of `processTransactions`: attach the resolved entity
annotation, when any (the icon/colour lookup applied alongside it is
presentational and elided). -/
def enhanceNode (entityInfo : List (String × EntityInfo)) (n : Node) : Node :=
  match lookupA entityInfo n.id with
  | some e => { n with entity := some e }
  | none => n

/-- Edge enhancement of `processTransactions`: attach the token metadata of
the edge's mint, when any (`edge.mint && tokenMetadata[edge.mint]`). -/
def enhanceEdgeMeta (tokenMetadata : List (String × TokenMetaInfo)) (e : Edge) : Edge :=
  if truthyS e.mint then
    match lookupA tokenMetadata (e.mint.getD "") with
    | some t => { e with tokenMetadata := some t }
    | none => e
  else e

/-- The non-early-exit payload of `processTransactions`: entity resolution
for edge-endpoint addresses, token-metadata lookup for edge mints, node and
edge enhancement. -/
def fullResponse (resolve : String → Option EntityInfo)
    (tokenMeta : String → Option TokenMetaInfo)
    (transactions : List Tx) (inputAddress : String) (st : BuildState) : Response :=
  let uniqueAddresses := uniqueEdgeAddresses st.edges
  let entityInfo := batchResolveAddresses resolve uniqueAddresses
  let mintsQueried := if st.edges.length > 0 then uniqueEdgeMints st.edges else []
  let tokenMetadata := mintsQueried.filterMap (fun m => (tokenMeta m).map (fun t => (m, t)))
  { nodes := st.nodes.map (enhanceNode entityInfo),
    edges := st.edges.map (enhanceEdgeMeta tokenMetadata),
    totalTransactions := transactions.length,
    entityInfo := entityInfo, tokenMetadata := tokenMetadata,
    resolvedAddresses := uniqueAddresses, queriedMints := mintsQueried }

/-- Embeds `processTransactions`: graph extraction, early exit when no transaction
carried transfers, otherwise the enriched payload.  `resolve` and
`tokenMeta` are oracles for the two network collaborators
(`entityIdentifier.batchResolveAddresses` / `getTokenMetadata`). -/
def processTransactions (resolve : String → Option EntityInfo)
    (tokenMeta : String → Option TokenMetaInfo)
    (transactions : List Tx) (inputAddress : String) : Response :=
  let st := buildGraph inputAddress transactions
  if !st.hasTransfers then
    earlyExitResponse transactions inputAddress
  else
    fullResponse resolve tokenMeta transactions inputAddress st

/-- An entry of the Redis token-metadata cache (`cacheData`). -/
structure CachedMeta where
  symbol : String
  name : String
  logo : Option String
  metadata : Option TokenMetaInfo
  deriving DecidableEq, Repr

/-- A per-mint record of the Helius token-metadata endpoint, with the
optional-chain paths (`onChainMetadata?.metadata?.data?.symbol`, …)
flattened into `Option` fields. -/
structure TokenInfoRec where
  onChainSymbol : Option String
  onChainName : Option String
  offChainSymbol : Option String
  offChainName : Option String
  logoURI : Option String
  decimals : Option ℚ
  supply : Option ℚ
  collection : Option String
  deriving DecidableEq, Repr

/-- Truthiness of `edge.mint && (edge.tokenSymbol === 'Unknown' || !edge.tokenSymbol)`:
this edge needs token-metadata enrichment. -/
def needsTokenMeta (e : Edge) : Bool :=
  truthyS e.mint && (e.tokenSymbol == some "Unknown" || !truthyS e.tokenSymbol)

/-- Apply a Redis-cached metadata record to an edge that needs one. -/
def applyCachedMeta (cached : String → Option CachedMeta) (e : Edge) : Edge :=
  if needsTokenMeta e then
    match cached (e.mint.getD "") with
    | some c => { e with tokenSymbol := some c.symbol, tokenName := some c.name,
                         tokenLogo := c.logo, tokenMetadata := c.metadata }
    | none => e
  else e

/-- The `unknownTokens` set of `enhanceTokenMetadata`: mints of edges that
need enrichment and miss the Redis cache, in first-seen order. -/
def unknownMintsOf (cached : String → Option CachedMeta) (edges : List Edge) :
    List String :=
  edges.foldl (fun acc e =>
    if needsTokenMeta e && (cached (e.mint.getD "")).isNone then
      setInsert acc (e.mint.getD "")
    else acc) []

/-- Apply one fetched token-metadata record: derive the symbol by the
fallback chain on-chain symbol → off-chain symbol → first 4 characters of
the on-chain name → "Unknown", and update every edge sharing the mint. -/
def fetchStep (fetchInfo : String → Option TokenInfoRec) (es : List Edge)
    (m : String) : List Edge :=
  match fetchInfo m with
  | some ti =>
      let symbol := (jsOrS ti.onChainSymbol (jsOrS ti.offChainSymbol
        (jsOrS (ti.onChainName.map (fun n => n.take 4)) (some "Unknown")))).getD "Unknown"
      let tokenName := (jsOrS ti.onChainName (jsOrS ti.offChainName
        (some "Unknown"))).getD "Unknown"
      let tm : TokenMetaInfo :=
        { decimals := ti.decimals, supply := ti.supply,
          collection := ti.collection, symbol := some symbol, name := some tokenName }
      es.map (fun e =>
        if e.mint == some m then
          { e with tokenSymbol := some symbol, tokenName := some tokenName,
                   tokenLogo := ti.logoURI, tokenMetadata := some tm }
        else e)
  | none => es

/-- Embeds `enhanceTokenMetadata`: early exit when there are no edges; otherwise
apply Redis-cached metadata to the edges that need it, then fetch the
remaining unknown mints from the token-metadata endpoint (batching by 5
only groups the outbound requests and does not change per-mint results
here, where endpoint failures are not modelled).  The second component
returns the mints sent to the endpoint — the outbound network calls of
this stage. -/
def enhanceTokenMetadata (cached : String → Option CachedMeta)
    (fetchInfo : String → Option TokenInfoRec) (data : Response) :
    Response × List String :=
  if data.edges.isEmpty then (data, [])
  else
    let edges1 := data.edges.map (applyCachedMeta cached)
    let unknownTokens := unknownMintsOf cached data.edges
    let edges2 := unknownTokens.foldl (fetchStep fetchInfo) edges1
    ({ data with edges := edges2 }, unknownTokens)

/-- The handler's processing pipeline after time filtering:
`processTransactions` followed by `enhanceTokenMetadata`.  Returns the
response together with the mints fetched by the enhancement stage. -/
def runPipeline (resolve : String → Option EntityInfo)
    (tokenMeta : String → Option TokenMetaInfo)
    (cached : String → Option CachedMeta)
    (fetchInfo : String → Option TokenInfoRec)
    (transactions : List Tx) (inputAddress : String) : Response × List String :=
  enhanceTokenMetadata cached fetchInfo
    (processTransactions resolve tokenMeta transactions inputAddress)

/-- Timestamp normalisation inside the handler's time filter:
`tx.timestamp ? (tx.timestamp > 1e10 ? tx.timestamp : tx.timestamp * 1000) : 0`. -/
def normalizeTimestamp (ts : Option Int) : Int :=
  match ts with
  | some t => if t != 0 then (if t > 10000000000 then t else t * 1000) else 0
  | none => 0

/-- The handler's server-side time-range filter:
`txTime >= startTime && txTime <= endTime`. -/
def filterByTimeRange (startTime endTime : Int) (txs : List Tx) : List Tx :=
  txs.filter (fun tx =>
    decide (startTime ≤ normalizeTimestamp tx.timestamp ∧
            normalizeTimestamp tx.timestamp ≤ endTime))

/-- Modelled from the spec wording of claim C6, for comparison with the
code: the raw timestamp is "multiplied by 1000 when it is below 1e10
(seconds) and taken as-is otherwise (already milliseconds)". -/
def normalizeTimestampClaim (t : Int) : Int :=
  if t < 10000000000 then t * 1000 else t

/-- One value of the `knownEntities` registry map. -/
structure KnownEntity where
  addresses : List String
  etype : String
  description : String
  deriving DecidableEq, Repr

/-- The static known-entity registry built by `initializeKnownEntities`
(insertion order of the `Map`); entries are
`(name, KnownEntity.mk addresses type description)`. -/
def knownEntities : List (String × KnownEntity) := [
  ("Tensor", KnownEntity.mk ["TSWAPaqyCSx2KABk68Shruf4rp7CxcNi8hAsbdwmHbN",
    "TENSORSWAP", "TSWAP"] "nft_marketplace" "NFT Marketplace"),
  ("Magic Eden", KnownEntity.mk ["M2mx93ekt1fmXSVkTrUL9xVFHkmME8HTUi5Cyc5aF7K",
    "MEisE1HzehtrDpAAT8PnLHjpSSkRYakotTuJRPjTpo8", "MAGIC_EDEN"]
    "nft_marketplace" "NFT Marketplace"),
  ("OpenSea", KnownEntity.mk ["hausS13jsjafwWwGqZTUQRmWyvyxn9EQpqMwV1PBBmk",
    "OPENSEA"] "nft_marketplace" "NFT Marketplace"),
  ("Solanart", KnownEntity.mk ["CJsLwbP1iu5DuUikHEJnLfANgKy6stB2uFgvBBHoyxwz"]
    "nft_marketplace" "NFT Marketplace"),
  ("Hyperspace", KnownEntity.mk ["HYPE"] "nft_marketplace" "NFT Marketplace"),
  ("Jupiter", KnownEntity.mk ["JUP4Fb2cqiRUcaTHdrPC8h2gNsA2ETXiPDD33WcGuJB",
    "JUP6LkbZbjS1jKKwapdHNy74zcZ3tLUZoi5QNyVTaV4", "JUP"] "dex" "DEX Aggregator"),
  ("Raydium", KnownEntity.mk ["675kPX9MHTjS2zt1qfr1NYHuzeLXfQM9H24wFSUt1Mp8",
    "RAYDIUM", "9rpQHSyFVM1dkkHFQ2TtTzPEW7DVmEyPmN8wVniqJtuC"] "dex" "DEX"),
  ("Orca", KnownEntity.mk ["9WzDXwBbmkg8ZTbNMqUxvQRAyrZzDsGYdLVL9zYtAWWM", "ORCA"]
    "dex" "DEX"),
  ("Serum", KnownEntity.mk ["9xQeWvG816bUx9EPjHmaT23yvVM2ZWbrrpZb9PusVFin", "SERUM"]
    "dex" "DEX"),
  ("Meteora", KnownEntity.mk ["METEORA"] "dex" "DEX"),
  ("Lifinity", KnownEntity.mk ["LIFINITY"] "dex" "DEX"),
  ("Marinade", KnownEntity.mk ["MarBmsSgKXdrN1egZf5sqe1TMai9K1rChYNDJgjq7aD",
    "MARINADE"] "staking" "Liquid Staking"),
  ("Lido", KnownEntity.mk ["CrWpNEbW5YJcawrnw1V5jFWnqDpMsi6M9Vz2WrfWxK3r", "LIDO"]
    "staking" "Liquid Staking"),
  ("Socean", KnownEntity.mk ["SOCEAN"] "staking" "Liquid Staking"),
  ("Jito", KnownEntity.mk ["JITO"] "staking" "Liquid Staking"),
  ("Phantom", KnownEntity.mk ["Phantom"] "wallet" "Wallet"),
  ("Solflare", KnownEntity.mk ["SOLFLARE"] "wallet" "Wallet"),
  ("Wormhole", KnownEntity.mk ["WormT3McKhFJ2RkiGpdY9QeS3gn9sKd3LqBKZU7wq4cn",
    "WORMHOLE"] "bridge" "Cross-chain Bridge"),
  ("Portal", KnownEntity.mk ["PORTAL"] "bridge" "Cross-chain Bridge"),
  ("Allbridge", KnownEntity.mk ["ALLBRIDGE"] "bridge" "Cross-chain Bridge"),
  ("Binance", KnownEntity.mk ["5Q544fKrFoe6tsEbD7S8EmxGTJYAKtTVhAW5Q5pge4j1",
    "BINANCE"] "exchange" "Centralized Exchange"),
  ("Coinbase", KnownEntity.mk ["COINBASE"] "exchange" "Centralized Exchange"),
  ("Kraken", KnownEntity.mk ["KRAKEN"] "exchange" "Centralized Exchange"),
  ("FTX", KnownEntity.mk ["FTX"] "exchange" "Centralized Exchange"),
  ("Solend", KnownEntity.mk ["So1endDq2YkqhipRh3WViPa8hdiSpxWy6z3Z6tMCpAo",
    "SOLEND"] "lending" "Lending Protocol"),
  ("Mango", KnownEntity.mk ["Mango"] "lending" "Lending Protocol"),
  ("Francium", KnownEntity.mk ["FRANCIUM"] "lending" "Lending Protocol"),
  ("Tulip", KnownEntity.mk ["TULIP"] "yield" "Yield Farming"),
  ("Saber", KnownEntity.mk ["SABER"] "yield" "Yield Farming"),
  ("Star Atlas", KnownEntity.mk ["STAR_ATLAS"] "gaming" "Gaming Platform"),
  ("Aurory", KnownEntity.mk ["AURORY"] "gaming" "Gaming Platform"),
  ("Anchor", KnownEntity.mk ["ANCHOR"] "defi" "DeFi Protocol"),
  ("Pyth", KnownEntity.mk ["PYTH"] "oracle" "Oracle Network"),
  ("Chainlink", KnownEntity.mk ["CHAINLINK"] "oracle" "Oracle Network"),
  ("Realms", KnownEntity.mk ["REALMS"] "dao" "DAO Platform"),
  ("Tribeca", KnownEntity.mk ["TRIBECA"] "dao" "DAO Platform")]

/-- Embeds `findKnownEntity`: scan the registry in insertion order for an exact
address match. -/
def findKnownEntity (address : String) : Option EntityInfo :=
  (knownEntities.find? (fun p => p.2.addresses.contains address)).map
    (fun p => { name := p.1, etype := p.2.etype, description := p.2.description,
                source := "known_entities" })

/-- Association-list write with JS `Map.set` semantics (overwrite or
append). -/
def setA : List (String × EntityInfo) → String → EntityInfo → List (String × EntityInfo)
  | [], a, e => [(a, e)]
  | (k, v) :: t, a, e => if k == a then (a, e) :: t else (k, v) :: setA t a e

/-- Embeds `cacheEntityInfo`: write-through to the Redis entity cache when Redis is
configured (a no-op otherwise; set failures only log). -/
def cacheEntityInfo (redisOn : Bool) (redis : List (String × EntityInfo))
    (address : String) (entityInfo : EntityInfo) : List (String × EntityInfo) :=
  if redisOn then setA redis address entityInfo else redis

/-- The outcome of one `getEntityInfo` call: the annotation (or null), the
updated in-process cache, the updated Redis entity cache, and the external
lookup services contacted, in order. -/
structure ResolveOutcome where
  result : Option EntityInfo
  mem : List (String × EntityInfo)
  redis : List (String × EntityInfo)
  calls : List String
  deriving DecidableEq, Repr

/-- Embeds `getEntityInfo` (EntityIdentifier with Redis cache): in-process cache →
Redis cache → static registry → SNS → Solscan → Birdeye → Jupiter, stopping
at the first hit, writing every hit through both caches, and returning null
when nothing matched (null results are not cached).  The four external
services are oracles with the spec's address-in/annotation-or-null-out
contract; a service failure behaves like a null answer (the code catches
and continues).  `resolveSNS` validates the address locally
(`length > 50 → null`) before its network call, so an over-long address
skips the SNS call. -/
def getEntityInfo (sns solscan birdeye jupiter : String → Option EntityInfo)
    (mem : List (String × EntityInfo)) (redisOn : Bool)
    (redis : List (String × EntityInfo)) (address : Option String) : ResolveOutcome :=
  match address with
  | none => { result := none, mem := mem, redis := redis, calls := [] }
  | some a =>
    if a.isEmpty then { result := none, mem := mem, redis := redis, calls := [] }
    else
      match lookupA mem a with
      | some e => { result := some e, mem := mem, redis := redis, calls := [] }
      | none =>
        match (if redisOn then lookupA redis a else none) with
        | some e => { result := some e, mem := setA mem a e, redis := redis, calls := [] }
        | none =>
          match findKnownEntity a with
          | some e => { result := some e, mem := setA mem a e,
                        redis := cacheEntityInfo redisOn redis a e, calls := [] }
          | none =>
            let snsRes := if a.length ≤ 50 then sns a else none
            let log1 : List String := if a.length ≤ 50 then ["sns"] else []
            match snsRes with
            | some e => { result := some e, mem := setA mem a e,
                          redis := cacheEntityInfo redisOn redis a e, calls := log1 }
            | none =>
              match solscan a with
              | some e => { result := some e, mem := setA mem a e,
                            redis := cacheEntityInfo redisOn redis a e,
                            calls := log1 ++ ["solscan"] }
              | none =>
                match birdeye a with
                | some e => { result := some e, mem := setA mem a e,
                              redis := cacheEntityInfo redisOn redis a e,
                              calls := log1 ++ ["solscan", "birdeye"] }
                | none =>
                  match jupiter a with
                  | some e => { result := some e, mem := setA mem a e,
                                redis := cacheEntityInfo redisOn redis a e,
                                calls := log1 ++ ["solscan", "birdeye", "jupiter"] }
                  | none => { result := none, mem := mem, redis := redis,
                              calls := log1 ++ ["solscan", "birdeye", "jupiter"] }

/-- The object returned by `checkRateLimit` (`limit`/`remaining` are `none`
for the JS `Infinity` of the not-configured path; `reset` is a timestamp). -/
structure RateLimitResult where
  success : Bool
  limit : Option ℕ
  remaining : Option ℕ
  reset : Int
  deriving DecidableEq, Repr

/-- Embeds `checkRateLimit`: when no rate limiter is configured, allow; when the
backing store's `limit` call succeeds, return its result; when it throws
(`Except.error`), log and allow.  The return type being `RateLimitResult`
(not `Except`) embeds that a store failure is never propagated to the
caller. -/
def checkRateLimit (configured : Bool) (limitCall : Except String RateLimitResult)
    (now : Int) : RateLimitResult :=
  if !configured then
    { success := true, limit := none, remaining := none, reset := now }
  else
    match limitCall with
    | .ok r => r
    | .error _ => { success := true, limit := some 10, remaining := some 5, reset := now }

/-! ### Concrete inputs used by witnesses and counterexamples -/

/-- Entity-resolution oracle that never finds anything. -/
def entOracleNone : String → Option EntityInfo := fun _ => none

/-- Token-metadata oracle that never finds anything. -/
def tokOracleNone : String → Option TokenMetaInfo := fun _ => none

/-- Redis token-cache oracle with no cached entries. -/
def cacheOracleNone : String → Option CachedMeta := fun _ => none

/-- Token-metadata-endpoint oracle that never finds anything. -/
def fetchOracleNone : String → Option TokenInfoRec := fun _ => none

/-- A queried wallet address used in concrete scenarios. -/
def wInput : String := "InputWalletAddr111111111111111111"

/-- A counterparty address. -/
def wAlice : String := "SenderAddr11111111111111111111111"

/-- A counterparty address. -/
def wBob : String := "ReceiverAddr111111111111111111111"

/-- A bystander address that only occurs in `accountData`. -/
def wCarol : String := "BystanderAddr11111111111111111111"

/-- A plain token transfer of the given amount between two wallets. -/
def mkTokenTransfer (f t : String) (amt : ℚ) : Transfer :=
  { fromUserAccount := some f, toUserAccount := some t, tokenAmount := some amt,
    amount := none, mint := some "MintAddr111111111111111111111111", tokenSymbol := none,
    uiTokenAmount := none, jsType := none }

/-- A plain native (SOL) transfer of the given amount between two wallets. -/
def mkNativeTransfer (f t : String) (amt : ℚ) : Transfer :=
  { fromUserAccount := some f, toUserAccount := some t, tokenAmount := none,
    amount := some amt, mint := none, tokenSymbol := none,
    uiTokenAmount := none, jsType := none }

/-- A transaction carrying the given transfer lists and account list. -/
def mkTx (tok nat : Option (List Transfer)) (acc : Option (List AccountEntry)) : Tx :=
  { signature := some "sig", timestamp := some 1700000000,
    tokenTransfers := tok, nativeTransfers := nat, transfers := none, accountData := acc }

/-- A transaction whose single token transfer sends 1 unit from the queried
wallet to `wBob` (the spec's NFT scenario). -/
def txTokenOne : Tx := mkTx (some [mkTokenTransfer wInput wBob 1]) none none

/-- A transaction whose single native transfer sends SOL from the queried
wallet to `wBob`. -/
def txNativeDirect : Tx := mkTx none (some [mkNativeTransfer wInput wBob 7]) none

/-- A transaction carrying a non-empty token-transfer list AND a non-empty
native-transfer list, both with the queried wallet as sender (claim C3). -/
def txBothLists : Tx :=
  mkTx (some [mkTokenTransfer wInput wBob 5]) (some [mkNativeTransfer wInput wBob 7]) none

/-- A transaction with one native transfer between two third parties and an
`accountData` list mentioning only the bystander `wCarol`: it yields zero
edges but its `accountData` pass still creates a Connected node (claim C2). -/
def txZeroEdges : Tx :=
  mkTx none (some [mkNativeTransfer wAlice wBob 5]) (some [{ account := some wCarol }])

/-- A transaction with no transfer lists at all (only `accountData`). -/
def txNoTransfers : Tx := mkTx none none (some [{ account := some wCarol }])

/-- A token transfer whose raw `tokenAmount` is 1 while its UI amount is 5
(claim C5). -/
def transferRawOne : Transfer :=
  { fromUserAccount := some wInput, toUserAccount := some wBob, tokenAmount := some 1,
    amount := none, mint := some "MintAddr111111111111111111111111", tokenSymbol := none,
    uiTokenAmount := some { uiAmount := some 5, decimals := some 0 }, jsType := none }

/-- A transaction timestamped exactly `1e10` (claim C6's boundary). -/
def txTsBoundary : Tx :=
  { signature := none, timestamp := some 10000000000, tokenTransfers := none,
    nativeTransfers := none, transfers := none, accountData := none }

/-- An address that matches nothing: not in the registry, and the oracle
services are instantiated to return null for it. -/
def wUnknown : String := "UnknownActorAddr11111111111111111"

/-- The registry annotation of the Jupiter program address. -/
def jupiterEntity : EntityInfo :=
  { name := "Jupiter", etype := "dex", description := "DEX Aggregator",
    source := "known_entities" }

/-- The Jupiter program address (a registry exact-match). -/
def jupiterAddr : String := "JUP4Fb2cqiRUcaTHdrPC8h2gNsA2ETXiPDD33WcGuJB"

/-! ### Verification predicates -/

/-- Some node of the list carries this id. -/
def hasNodeId (nodes : List Node) (s : String) : Prop :=
  ∃ n ∈ nodes, n.id = s

/-- Per-edge invariant established by graph construction: both endpoints
are node ids, the direct/incidental tags are never both true, and a native
(SOL) edge has the queried address as an endpoint. -/
def EdgeInv (input : String) (nodes : List Node) (e : Edge) : Prop :=
  hasNodeId nodes e.source ∧ hasNodeId nodes e.target ∧
  ¬(e.isDirectTransfer = some true ∧ e.isRelatedTransfer = some true) ∧
  (e.etype = "SOL" → (e.source = input ∨ e.target = input))

/-- Invariant of the graph-construction loop state. -/
def GraphInv (input : String) (nodes : List Node) (edges : List Edge) : Prop :=
  hasNodeId nodes input ∧ ∀ e ∈ edges, EdgeInv input nodes e

/-! ### Helper lemmas -/

theorem foldl_inv {α σ : Type} (Inv : σ → Prop) (f : σ → α → σ) (l : List α)
    (h : ∀ s a, a ∈ l → Inv s → Inv (f s a)) (s : σ) (hs : Inv s) :
    Inv (l.foldl f s) := by
  induction l generalizing s with
  | nil => exact hs
  | cons a t ih =>
      exact ih (fun s b hb => h s b (List.mem_cons_of_mem _ hb)) _
        (h s a (List.mem_cons_self _ _) hs)

theorem truthyS_some (s : String) (hs : s ≠ "") : truthyS (some s) = true := by
  have hempty : s.isEmpty = false := by
    rw [Bool.eq_false_iff]
    intro h
    exact hs ((String.isEmpty_iff _).mp h)
  simp only [truthyS, hempty]
  rfl

theorem truthyS_iff (o : Option String) :
    truthyS o = true ↔ ∃ s, o = some s ∧ s ≠ "" := by
  cases o with
  | none => simp [truthyS]
  | some s =>
      constructor
      · intro h
        refine ⟨s, rfl, fun hs => ?_⟩
        subst hs
        exact absurd h (by decide)
      · rintro ⟨t, ht, hne⟩
        injection ht with h2
        subst h2
        exact truthyS_some _ hne

theorem mem_addNodeIfNeeded_of_mem (a : Option String) (nodes : List Node)
    (input : String) (n : Node) (hn : n ∈ nodes) :
    n ∈ addNodeIfNeeded a nodes input := by
  cases a with
  | none => exact hn
  | some s =>
      simp only [addNodeIfNeeded]
      split
      · exact List.mem_append_left _ hn
      · exact hn

theorem hasNodeId_mono_addNode (a : Option String) (nodes : List Node)
    (input x : String) (hx : hasNodeId nodes x) :
    hasNodeId (addNodeIfNeeded a nodes input) x := by
  obtain ⟨n, hn, hid⟩ := hx
  exact ⟨n, mem_addNodeIfNeeded_of_mem a nodes input n hn, hid⟩

theorem hasNodeId_addNode_self (s : String) (nodes : List Node) (input : String)
    (hs : s ≠ "") (hin : hasNodeId nodes input) :
    hasNodeId (addNodeIfNeeded (some s) nodes input) s := by
  have hempty : s.isEmpty = false := by
    rw [Bool.eq_false_iff]
    intro h
    exact hs ((String.isEmpty_iff _).mp h)
  simp only [addNodeIfNeeded]
  cases hcond : (!s.isEmpty && s != input && !(nodes.any fun n => n.id == s)) with
  | true =>
      rw [if_pos rfl]
      exact ⟨⟨s, formatAddress s, "wallet", 40, none⟩,
        List.mem_append_right _ (List.mem_singleton_self _), rfl⟩
  | false =>
      rw [if_neg (by decide)]
      by_cases hsi : s = input
      · subst hsi
        exact hin
      · have hbne : (s != input) = true := by
          simp only [bne_iff_ne, ne_eq]
          exact hsi
        have hany : (nodes.any fun n => n.id == s) = true := by
          by_contra h
          rw [Bool.not_eq_true] at h
          rw [hempty, hbne, h] at hcond
          exact absurd hcond (by decide)
        simp only [List.any_eq_true, beq_iff_eq] at hany
        obtain ⟨n, hn, hid⟩ := hany
        exact ⟨n, hn, hid⟩

theorem getTransactionType_ne_SOL (tr : Transfer) : getTransactionType tr ≠ "SOL" := by
  unfold getTransactionType
  split <;> decide

theorem edgeInv_mono (input : String) (nodes nodes' : List Node) (e : Edge)
    (hmono : ∀ x, hasNodeId nodes x → hasNodeId nodes' x)
    (h : EdgeInv input nodes e) : EdgeInv input nodes' e :=
  ⟨hmono _ h.1, hmono _ h.2.1, h.2.2.1, h.2.2.2⟩

theorem graphInv_processTokenTransfer (tr : Transfer) (tx : Tx) (i j : ℕ)
    (nodes : List Node) (edges : List Edge) (input : String)
    (h : GraphInv input nodes edges) :
    GraphInv input (processTokenTransfer tr tx i j nodes edges input).1
      (processTokenTransfer tr tx i j nodes edges input).2 := by
  obtain ⟨hin, hedges⟩ := h
  simp only [processTokenTransfer]
  split
  · split
    · rename_i htruthy
      rw [Bool.and_eq_true] at htruthy
      obtain ⟨fs, hfeq, hfne⟩ := (truthyS_iff _).mp htruthy.1
      obtain ⟨ts, hteq, htne⟩ := (truthyS_iff _).mp htruthy.2
      rw [hfeq, hteq]
      have hin1 : hasNodeId (addNodeIfNeeded (some fs) nodes input) input :=
        hasNodeId_mono_addNode _ _ _ _ hin
      have hin2 : hasNodeId (addNodeIfNeeded (some ts)
          (addNodeIfNeeded (some fs) nodes input) input) input :=
        hasNodeId_mono_addNode _ _ _ _ hin1
      have hfsrc : hasNodeId (addNodeIfNeeded (some ts)
          (addNodeIfNeeded (some fs) nodes input) input) fs :=
        hasNodeId_mono_addNode _ _ _ _ (hasNodeId_addNode_self fs nodes input hfne hin)
      have htgt : hasNodeId (addNodeIfNeeded (some ts)
          (addNodeIfNeeded (some fs) nodes input) input) ts :=
        hasNodeId_addNode_self ts _ input htne hin1
      refine ⟨hin2, fun e he => ?_⟩
      rcases List.mem_append.mp he with hold | hnew
      · refine edgeInv_mono input nodes _ e (fun x hx => ?_) (hedges e hold)
        show hasNodeId (addNodeIfNeeded (some ts)
          (addNodeIfNeeded (some fs) nodes input) input) x
        exact hasNodeId_mono_addNode _ _ _ _ (hasNodeId_mono_addNode _ _ _ _ hx)
      · rw [List.mem_singleton] at hnew
        subst hnew
        refine ⟨hfsrc, htgt, ?_, ?_⟩
        · rintro ⟨hd, hr⟩
          simp only [Option.some.injEq] at hd hr
          rw [hd] at hr
          simp at hr
        · intro hsol
          exact absurd hsol (getTransactionType_ne_SOL tr)
    · refine ⟨hasNodeId_mono_addNode _ _ _ _ (hasNodeId_mono_addNode _ _ _ _ hin),
        fun e he => ?_⟩
      refine edgeInv_mono input nodes _ e (fun x hx => ?_) (hedges e he)
      exact hasNodeId_mono_addNode _ _ _ _ (hasNodeId_mono_addNode _ _ _ _ hx)
  · exact ⟨hin, hedges⟩

theorem graphInv_processNativeTransfer (tr : Transfer) (tx : Tx) (i j : ℕ)
    (nodes : List Node) (edges : List Edge) (input : String)
    (h : GraphInv input nodes edges) :
    GraphInv input (processNativeTransfer tr tx i j nodes edges input).1
      (processNativeTransfer tr tx i j nodes edges input).2 := by
  obtain ⟨hin, hedges⟩ := h
  simp only [processNativeTransfer]
  split
  · rename_i hguard
    split
    · rename_i htruthy
      rw [Bool.and_eq_true] at htruthy
      obtain ⟨fs, hfeq, hfne⟩ := (truthyS_iff _).mp htruthy.1
      obtain ⟨ts, hteq, htne⟩ := (truthyS_iff _).mp htruthy.2
      rw [hfeq, hteq] at hguard ⊢
      have hin1 : hasNodeId (addNodeIfNeeded (some fs) nodes input) input :=
        hasNodeId_mono_addNode _ _ _ _ hin
      have hin2 : hasNodeId (addNodeIfNeeded (some ts)
          (addNodeIfNeeded (some fs) nodes input) input) input :=
        hasNodeId_mono_addNode _ _ _ _ hin1
      have hfsrc : hasNodeId (addNodeIfNeeded (some ts)
          (addNodeIfNeeded (some fs) nodes input) input) fs :=
        hasNodeId_mono_addNode _ _ _ _ (hasNodeId_addNode_self fs nodes input hfne hin)
      have htgt : hasNodeId (addNodeIfNeeded (some ts)
          (addNodeIfNeeded (some fs) nodes input) input) ts :=
        hasNodeId_addNode_self ts _ input htne hin1
      refine ⟨hin2, fun e he => ?_⟩
      rcases List.mem_append.mp he with hold | hnew
      · refine edgeInv_mono input nodes _ e (fun x hx => ?_) (hedges e hold)
        show hasNodeId (addNodeIfNeeded (some ts)
          (addNodeIfNeeded (some fs) nodes input) input) x
        exact hasNodeId_mono_addNode _ _ _ _ (hasNodeId_mono_addNode _ _ _ _ hx)
      · rw [List.mem_singleton] at hnew
        subst hnew
        refine ⟨hfsrc, htgt, ?_, ?_⟩
        · rintro ⟨hd, hr⟩
          simp at hd
        · intro _
          rw [Bool.or_eq_true] at hguard
          rcases hguard with hg | hg
          · left
            simp only [oEqS, beq_iff_eq] at hg
            exact hg
          · right
            simp only [oEqS, beq_iff_eq] at hg
            exact hg
    · refine ⟨hasNodeId_mono_addNode _ _ _ _ (hasNodeId_mono_addNode _ _ _ _ hin),
        fun e he => ?_⟩
      refine edgeInv_mono input nodes _ e (fun x hx => ?_) (hedges e he)
      exact hasNodeId_mono_addNode _ _ _ _ (hasNodeId_mono_addNode _ _ _ _ hx)
  · exact ⟨hin, hedges⟩

theorem graphInv_mono_addNode (a : Option String) (nodes : List Node)
    (input : String) (edges : List Edge) (h : GraphInv input nodes edges) :
    GraphInv input (addNodeIfNeeded a nodes input) edges :=
  ⟨hasNodeId_mono_addNode _ _ _ _ h.1,
   fun e he => edgeInv_mono input nodes _ e
     (fun x hx => hasNodeId_mono_addNode _ _ _ _ hx) (h.2 e he)⟩

theorem graphInv_tokenFold (tx : Tx) (i : ℕ) (input : String) (l : List (ℕ × Transfer))
    (p : List Node × List Edge) (h : GraphInv input p.1 p.2) :
    GraphInv input
      (l.foldl (fun p ti => processTokenTransfer ti.2 tx i ti.1 p.1 p.2 input) p).1
      (l.foldl (fun p ti => processTokenTransfer ti.2 tx i ti.1 p.1 p.2 input) p).2 :=
  foldl_inv (fun q : List Node × List Edge => GraphInv input q.1 q.2) _ l
    (fun s a _ hs => graphInv_processTokenTransfer a.2 tx i a.1 s.1 s.2 input hs) p h

theorem graphInv_nativeFold (tx : Tx) (i : ℕ) (input : String) (l : List (ℕ × Transfer))
    (p : List Node × List Edge) (h : GraphInv input p.1 p.2) :
    GraphInv input
      (l.foldl (fun p ti => processNativeTransfer ti.2 tx i ti.1 p.1 p.2 input) p).1
      (l.foldl (fun p ti => processNativeTransfer ti.2 tx i ti.1 p.1 p.2 input) p).2 :=
  foldl_inv (fun q : List Node × List Edge => GraphInv input q.1 q.2) _ l
    (fun s a _ hs => graphInv_processNativeTransfer a.2 tx i a.1 s.1 s.2 input hs) p h

theorem graphInv_altFold (tx : Tx) (i : ℕ) (input : String) (l : List (ℕ × Transfer))
    (p : List Node × List Edge) (h : GraphInv input p.1 p.2) :
    GraphInv input
      (l.foldl (fun p ti =>
        if oEqS ti.2.jsType "token" || truthyS ti.2.mint then
          processTokenTransfer ti.2 tx i ti.1 p.1 p.2 input
        else if oEqS ti.2.jsType "native" || truthyQ ti.2.amount then
          processNativeTransfer ti.2 tx i ti.1 p.1 p.2 input
        else p) p).1
      (l.foldl (fun p ti =>
        if oEqS ti.2.jsType "token" || truthyS ti.2.mint then
          processTokenTransfer ti.2 tx i ti.1 p.1 p.2 input
        else if oEqS ti.2.jsType "native" || truthyQ ti.2.amount then
          processNativeTransfer ti.2 tx i ti.1 p.1 p.2 input
        else p) p).2 := by
  refine foldl_inv (fun q : List Node × List Edge => GraphInv input q.1 q.2) _ l
    (fun s a _ hs => ?_) p h
  dsimp only
  split
  · exact graphInv_processTokenTransfer a.2 tx i a.1 s.1 s.2 input hs
  · split
    · exact graphInv_processNativeTransfer a.2 tx i a.1 s.1 s.2 input hs
    · exact hs

theorem graphInv_accountFold (input : String) (l : List AccountEntry)
    (nodes : List Node) (edges : List Edge) (h : GraphInv input nodes edges) :
    GraphInv input
      (l.foldl (fun acc a =>
        match a.account with
        | some s => if !s.isEmpty && s != input then
            addNodeIfNeeded (some s) acc input
          else acc
        | none => acc) nodes) edges := by
  refine foldl_inv (fun ns => GraphInv input ns edges) _ l (fun s a _ hs => ?_) nodes h
  dsimp only
  cases ha : a.account with
  | none =>
      simp only [ha]
      exact hs
  | some str =>
      simp only [ha]
      split
      · exact graphInv_mono_addNode _ _ _ _ hs
      · exact hs

theorem graphInv_processOneTx (input : String) (st : BuildState) (i : ℕ) (tx : Tx)
    (h : GraphInv input st.nodes st.edges) :
    GraphInv input (processOneTx input st i tx).nodes (processOneTx input st i tx).edges := by
  simp only [processOneTx]
  split
  · exact h
  · rename_i hskip
    dsimp only
    split
    · refine graphInv_accountFold input _ _ _ ?_
      split
      · exact graphInv_tokenFold tx i input _ (st.nodes, st.edges) h
      · split
        · exact graphInv_nativeFold tx i input _ (st.nodes, st.edges) h
        · rename_i hTok hNat
          exfalso
          apply hskip
          have h1 : hasTokenTransfers tx = false := Bool.eq_false_iff.mpr hTok
          have h2 : hasNativeTransfers tx = false := Bool.eq_false_iff.mpr hNat
          rw [h1, h2]
          rfl
    · split
      · exact graphInv_tokenFold tx i input _ (st.nodes, st.edges) h
      · split
        · exact graphInv_nativeFold tx i input _ (st.nodes, st.edges) h
        · rename_i hTok hNat
          exfalso
          apply hskip
          have h1 : hasTokenTransfers tx = false := Bool.eq_false_iff.mpr hTok
          have h2 : hasNativeTransfers tx = false := Bool.eq_false_iff.mpr hNat
          rw [h1, h2]
          rfl

theorem graphInv_buildGraph (input : String) (txs : List Tx) :
    GraphInv input (buildGraph input txs).nodes (buildGraph input txs).edges := by
  refine foldl_inv (fun st : BuildState => GraphInv input st.nodes st.edges) _ txs.enum
    (fun s a _ hs => graphInv_processOneTx input s a.1 a.2 hs) _ ?_
  exact ⟨⟨inputNode input, List.mem_singleton_self _, rfl⟩,
    fun e he => absurd he (List.not_mem_nil e)⟩

theorem enhanceNode_id (ei : List (String × EntityInfo)) (n : Node) :
    (enhanceNode ei n).id = n.id := by
  unfold enhanceNode
  split <;> rfl

theorem enhanceEdgeMeta_source (tm : List (String × TokenMetaInfo)) (e : Edge) :
    (enhanceEdgeMeta tm e).source = e.source := by
  unfold enhanceEdgeMeta
  split
  · split <;> rfl
  · rfl

theorem enhanceEdgeMeta_target (tm : List (String × TokenMetaInfo)) (e : Edge) :
    (enhanceEdgeMeta tm e).target = e.target := by
  unfold enhanceEdgeMeta
  split
  · split <;> rfl
  · rfl

theorem enhanceEdgeMeta_etype (tm : List (String × TokenMetaInfo)) (e : Edge) :
    (enhanceEdgeMeta tm e).etype = e.etype := by
  unfold enhanceEdgeMeta
  split
  · split <;> rfl
  · rfl

theorem enhanceEdgeMeta_isDirect (tm : List (String × TokenMetaInfo)) (e : Edge) :
    (enhanceEdgeMeta tm e).isDirectTransfer = e.isDirectTransfer := by
  unfold enhanceEdgeMeta
  split
  · split <;> rfl
  · rfl

theorem enhanceEdgeMeta_isRelated (tm : List (String × TokenMetaInfo)) (e : Edge) :
    (enhanceEdgeMeta tm e).isRelatedTransfer = e.isRelatedTransfer := by
  unfold enhanceEdgeMeta
  split
  · split <;> rfl
  · rfl

theorem respInv_processTransactions (resolve : String → Option EntityInfo)
    (tokenMeta : String → Option TokenMetaInfo) (txs : List Tx) (input : String) :
    ∀ e ∈ (processTransactions resolve tokenMeta txs input).edges,
      (∃ n ∈ (processTransactions resolve tokenMeta txs input).nodes, n.id = e.source) ∧
      (∃ n ∈ (processTransactions resolve tokenMeta txs input).nodes, n.id = e.target) ∧
      ¬(e.isDirectTransfer = some true ∧ e.isRelatedTransfer = some true) ∧
      (e.etype = "SOL" → (e.source = input ∨ e.target = input)) := by
  intro e he
  have hPT : processTransactions resolve tokenMeta txs input =
      (if !(buildGraph input txs).hasTransfers then earlyExitResponse txs input
       else fullResponse resolve tokenMeta txs input (buildGraph input txs)) := rfl
  rw [hPT] at he
  simp only [hPT]
  cases hcond : (buildGraph input txs).hasTransfers with
  | false =>
      simp [hcond, earlyExitResponse] at he
  | true =>
      simp only [hcond, Bool.not_true, Bool.false_eq_true, if_false] at he ⊢
      simp only [fullResponse] at he ⊢
      obtain ⟨e0, he0, rfl⟩ := List.mem_map.mp he
      obtain ⟨hsrc, htgt, hflags, hsol⟩ := (graphInv_buildGraph input txs).2 e0 he0
      simp only [enhanceEdgeMeta_source, enhanceEdgeMeta_target, enhanceEdgeMeta_etype,
        enhanceEdgeMeta_isDirect, enhanceEdgeMeta_isRelated]
      refine ⟨?_, ?_, hflags, hsol⟩
      · obtain ⟨n0, hn0, hid⟩ := hsrc
        exact ⟨enhanceNode _ n0, List.mem_map_of_mem _ hn0, by rw [enhanceNode_id]; exact hid⟩
      · obtain ⟨n0, hn0, hid⟩ := htgt
        exact ⟨enhanceNode _ n0, List.mem_map_of_mem _ hn0, by rw [enhanceNode_id]; exact hid⟩

theorem applyCachedMeta_isDirect (c : String → Option CachedMeta) (e : Edge) :
    (applyCachedMeta c e).isDirectTransfer = e.isDirectTransfer := by
  unfold applyCachedMeta
  split
  · split <;> rfl
  · rfl

theorem applyCachedMeta_isRelated (c : String → Option CachedMeta) (e : Edge) :
    (applyCachedMeta c e).isRelatedTransfer = e.isRelatedTransfer := by
  unfold applyCachedMeta
  split
  · split <;> rfl
  · rfl

theorem fetchStep_pres (f : String → Option TokenInfoRec) (es : List Edge) (m : String) :
    ∀ e1 ∈ fetchStep f es m, ∃ e ∈ es,
      e1.isDirectTransfer = e.isDirectTransfer ∧
      e1.isRelatedTransfer = e.isRelatedTransfer := by
  intro e1 he1
  unfold fetchStep at he1
  split at he1
  · obtain ⟨e, he, rfl⟩ := List.mem_map.mp he1
    refine ⟨e, he, ?_, ?_⟩
    · dsimp only
      split <;> rfl
    · dsimp only
      split <;> rfl
  · exact ⟨e1, he1, rfl, rfl⟩

theorem foldl_fetch_pres (f : String → Option TokenInfoRec) (l : List String)
    (es : List Edge) :
    ∀ e1 ∈ l.foldl (fetchStep f) es, ∃ e ∈ es,
      e1.isDirectTransfer = e.isDirectTransfer ∧
      e1.isRelatedTransfer = e.isRelatedTransfer := by
  induction l generalizing es with
  | nil => exact fun e1 he1 => ⟨e1, he1, rfl, rfl⟩
  | cons m t ih =>
      intro e1 he1
      obtain ⟨e2, he2, hd2, hr2⟩ := ih (fetchStep f es m) e1 he1
      obtain ⟨e, he, hd, hr⟩ := fetchStep_pres f es m e2 he2
      exact ⟨e, he, by rw [hd2, hd], by rw [hr2, hr]⟩

theorem enhance_pres_flags (cached : String → Option CachedMeta)
    (fetchInfo : String → Option TokenInfoRec) (data : Response) :
    ∀ e1 ∈ (enhanceTokenMetadata cached fetchInfo data).1.edges,
      ∃ e ∈ data.edges, e1.isDirectTransfer = e.isDirectTransfer ∧
        e1.isRelatedTransfer = e.isRelatedTransfer := by
  intro e1 he1
  unfold enhanceTokenMetadata at he1
  split at he1
  · exact ⟨e1, he1, rfl, rfl⟩
  · dsimp only at he1
    obtain ⟨e2, he2, hd2, hr2⟩ := foldl_fetch_pres fetchInfo _ _ e1 he1
    obtain ⟨e0, he0, rfl⟩ := List.mem_map.mp he2
    exact ⟨e0, he0, by rw [hd2, applyCachedMeta_isDirect],
      by rw [hr2, applyCachedMeta_isRelated]⟩

/-- C1: Referential integrity — for every list of filtered transactions and
every queried address, every edge returned by graph construction has a
source and a target that both appear as node ids in the returned node set. -/
theorem graph_referential_integrity (resolve : String → Option EntityInfo)
    (tokenMeta : String → Option TokenMetaInfo) (txs : List Tx) (input : String)
    (e : Edge) (he : e ∈ (processTransactions resolve tokenMeta txs input).edges) :
    (∃ n ∈ (processTransactions resolve tokenMeta txs input).nodes, n.id = e.source) ∧
    (∃ n ∈ (processTransactions resolve tokenMeta txs input).nodes, n.id = e.target) :=
  ⟨(respInv_processTransactions resolve tokenMeta txs input e he).1,
   (respInv_processTransactions resolve tokenMeta txs input e he).2.1⟩

/-- Witness for C1 at a concrete input: the NFT-scenario transaction
produces an edge, and its endpoints are node ids of the response. -/
theorem graph_referential_integrity_witness :
    (∃ n ∈ (processTransactions entOracleNone tokOracleNone [txTokenOne] wInput).nodes,
      n.id = ((processTransactions entOracleNone tokOracleNone [txTokenOne] wInput).edges.headD
        { id := "", source := "", target := "", etype := "", amount := 0 }).source) ∧
    (∃ n ∈ (processTransactions entOracleNone tokOracleNone [txTokenOne] wInput).nodes,
      n.id = ((processTransactions entOracleNone tokOracleNone [txTokenOne] wInput).edges.headD
        { id := "", source := "", target := "", etype := "", amount := 0 }).target) :=
  graph_referential_integrity entOracleNone tokOracleNone [txTokenOne] wInput _ (by decide)

/-- C10: every edge created from a native (SOL) transfer has the queried
address as its source or its target — incidental capture applies only to
token transfers, so a native edge never lacks the queried address as an
endpoint. -/
theorem native_edges_are_direct (resolve : String → Option EntityInfo)
    (tokenMeta : String → Option TokenMetaInfo) (txs : List Tx) (input : String)
    (e : Edge) (he : e ∈ (processTransactions resolve tokenMeta txs input).edges)
    (hsol : e.etype = "SOL") :
    e.source = input ∨ e.target = input :=
  (respInv_processTransactions resolve tokenMeta txs input e he).2.2.2 hsol

/-- Witness for C10 at a concrete input: a direct native transfer produces
a SOL edge with the queried wallet as an endpoint. -/
theorem native_edges_are_direct_witness :
    ((processTransactions entOracleNone tokOracleNone [txNativeDirect] wInput).edges.headD
      { id := "", source := "", target := "", etype := "", amount := 0 }).source = wInput ∨
    ((processTransactions entOracleNone tokOracleNone [txNativeDirect] wInput).edges.headD
      { id := "", source := "", target := "", etype := "", amount := 0 }).target = wInput :=
  native_edges_are_direct entOracleNone tokOracleNone [txNativeDirect] wInput _
    (by decide) (by decide)

/-- C7: mutual exclusion of transfer tags — for every edge in a pipeline
response, the direct tag (`isDirectTransfer`) and the incidental tag
(`isRelatedTransfer`) are never both true. -/
theorem direct_incidental_exclusive (resolve : String → Option EntityInfo)
    (tokenMeta : String → Option TokenMetaInfo) (cached : String → Option CachedMeta)
    (fetchInfo : String → Option TokenInfoRec) (txs : List Tx) (input : String)
    (e : Edge)
    (he : e ∈ (runPipeline resolve tokenMeta cached fetchInfo txs input).1.edges) :
    ¬(e.isDirectTransfer = some true ∧ e.isRelatedTransfer = some true) := by
  obtain ⟨e1, he1, hd, hr⟩ := enhance_pres_flags cached fetchInfo _ e he
  rintro ⟨h1, h2⟩
  rw [hd] at h1
  rw [hr] at h2
  exact (respInv_processTransactions resolve tokenMeta txs input e1 he1).2.2.1 ⟨h1, h2⟩

/-- Witness for C7 at a concrete input: the NFT-scenario response edge does
not carry both tags. -/
theorem direct_incidental_exclusive_witness :
    ¬(((runPipeline entOracleNone tokOracleNone cacheOracleNone fetchOracleNone
        [txTokenOne] wInput).1.edges.headD
        { id := "", source := "", target := "", etype := "", amount := 0 }).isDirectTransfer
        = some true ∧
      ((runPipeline entOracleNone tokOracleNone cacheOracleNone fetchOracleNone
        [txTokenOne] wInput).1.edges.headD
        { id := "", source := "", target := "", etype := "", amount := 0 }).isRelatedTransfer
        = some true) :=
  direct_incidental_exclusive entOracleNone tokOracleNone cacheOracleNone fetchOracleNone
    [txTokenOne] wInput _ (by decide)

theorem snd_mem_enumFrom {α : Type} :
    ∀ (l : List α) (n : ℕ) (p : ℕ × α), p ∈ l.enumFrom n → p.2 ∈ l
  | [], _, p, hp => absurd hp (List.not_mem_nil p)
  | a :: t, n, p, hp => by
      rw [List.enumFrom] at hp
      rcases List.mem_cons.mp hp with h | h
      · rw [h]
        exact List.mem_cons_self _ _
      · exact List.mem_cons_of_mem _ (snd_mem_enumFrom t (n + 1) p h)

theorem snd_mem_enum {α : Type} (l : List α) (p : ℕ × α) (hp : p ∈ l.enum) :
    p.2 ∈ l :=
  snd_mem_enumFrom l 0 p hp

/-- C5 counterexample: a transfer with raw `tokenAmount = 1` but UI amount 5
classifies as NFT, although its UI amount is a positive amount other
than 1 (the claim would require SPL_TOKEN). -/
theorem nft_raw_amount_cex :
    getTransactionType transferRawOne = "NFT" ∧
    transferRawOne.uiTokenAmount.bind UiTokenAmount.uiAmount = some 5 := by
  exact ⟨rfl, rfl⟩

/-- C5 amended: the classifier returns NFT exactly when the raw token
amount equals 1 or the UI amount equals 1, and SPL_TOKEN otherwise. -/
theorem getTransactionType_nft_iff (transfer : Transfer) :
    (getTransactionType transfer = "NFT" ↔
      (transfer.tokenAmount = some 1 ∨
        transfer.uiTokenAmount.bind UiTokenAmount.uiAmount = some 1)) ∧
    (getTransactionType transfer = "SPL_TOKEN" ↔
      ¬(transfer.tokenAmount = some 1 ∨
        transfer.uiTokenAmount.bind UiTokenAmount.uiAmount = some 1)) := by
  unfold getTransactionType
  split
  · rename_i h
    simp only [Bool.or_eq_true, beq_iff_eq] at h
    constructor
    · exact ⟨fun _ => h, fun _ => rfl⟩
    · constructor
      · intro hh
        exact absurd hh (by decide)
      · intro hh
        exact absurd h hh
  · rename_i h
    simp only [Bool.or_eq_true, beq_iff_eq] at h
    constructor
    · constructor
      · intro hh
        exact absurd hh (by decide)
      · intro hor
        exact absurd hor h
    · exact ⟨fun _ => h, fun _ => rfl⟩

/-- C6 counterexample: a transaction timestamped exactly `1e10` with the
range `[1e10, 1e10]` is dropped by the code (which multiplies timestamps
`≤ 1e10` by 1000), although the claim's normalization (`< 1e10` is seconds,
otherwise already milliseconds) would retain it. -/
theorem timestamp_boundary_cex :
    filterByTimeRange 10000000000 10000000000 [txTsBoundary] = [] ∧
    (10000000000 ≤ normalizeTimestampClaim 10000000000 ∧
      normalizeTimestampClaim 10000000000 ≤ 10000000000) := by
  refine ⟨by decide, by decide, by decide⟩

/-- C6 amended: a transaction is retained iff
`start ≤ normalizeTimestamp ≤ end` (inclusive on both ends), where the code
multiplies the raw timestamp by 1000 when it is at most `1e10` and takes it
as-is only when strictly above `1e10` (missing or zero timestamps normalize
to 0). -/
theorem filter_retains_iff (s e : Int) (txs : List Tx) (tx : Tx) :
    tx ∈ filterByTimeRange s e txs ↔
      tx ∈ txs ∧ s ≤ normalizeTimestamp tx.timestamp ∧
        normalizeTimestamp tx.timestamp ≤ e := by
  simp [filterByTimeRange, List.mem_filter]

/-- C3 counterexample: a transaction carrying both a non-empty
`tokenTransfers` list and a non-empty `nativeTransfers` list (both
involving the queried wallet) contributes only the token edge — no SOL
edge is produced, refuting "edges extracted from both lists". -/
theorem both_lists_native_dropped_cex :
    hasTokenTransfers txBothLists = true ∧ hasNativeTransfers txBothLists = true ∧
    (processTransactions entOracleNone tokOracleNone [txBothLists] wInput).edges.map
      Edge.etype = ["SPL_TOKEN"] := by
  refine ⟨by decide, by decide, by decide⟩

/-- C3 amended: token transfers take precedence — when a transaction
carries a non-empty `tokenTransfers` list, processing it is unchanged by
erasing its `nativeTransfers` list entirely (the native list contributes
nothing). -/
theorem tokenTransfers_precedence (input : String) (st : BuildState) (i : ℕ) (tx : Tx)
    (h : hasTokenTransfers tx = true) :
    processOneTx input st i tx =
      processOneTx input st i { tx with nativeTransfers := none } := by
  have h2 : hasTokenTransfers { tx with nativeTransfers := none } = true := h
  simp only [processOneTx, h, h2, Bool.not_true, Bool.false_and, Bool.false_eq_true,
    if_false, if_true]
  rfl

/-- Witness for the amended C3 at a concrete input. -/
theorem tokenTransfers_precedence_witness :
    processOneTx wInput ⟨[inputNode wInput], [], false⟩ 0 txBothLists =
      processOneTx wInput ⟨[inputNode wInput], [], false⟩ 0
        { txBothLists with nativeTransfers := none } :=
  tokenTransfers_precedence wInput ⟨[inputNode wInput], [], false⟩ 0 txBothLists (by decide)

/-- C2 counterexample: an input with one native transfer between two third
parties plus an `accountData` entry yields zero edges, but the pipeline
response has TWO nodes (Input plus a Connected node from `accountData`),
not exactly one. -/
theorem zero_edges_two_nodes_cex :
    (runPipeline entOracleNone tokOracleNone cacheOracleNone fetchOracleNone
      [txZeroEdges] wInput).1.edges = [] ∧
    (runPipeline entOracleNone tokOracleNone cacheOracleNone fetchOracleNone
      [txZeroEdges] wInput).1.nodes.length = 2 := by
  refine ⟨by decide, by decide⟩

/-- C2 amended: the short-circuit guard is "no transaction carries a
non-empty `tokenTransfers` or `nativeTransfers` list" (not "zero edges"):
under that guard the pipeline returns exactly the Input node, no edges,
empty `entityInfo`/`tokenMetadata`, no entity-resolution requests and no
token-metadata requests. -/
theorem early_exit_no_transfers (resolve : String → Option EntityInfo)
    (tokenMeta : String → Option TokenMetaInfo) (cached : String → Option CachedMeta)
    (fetchInfo : String → Option TokenInfoRec) (txs : List Tx) (input : String)
    (h : ∀ tx ∈ txs, hasTokenTransfers tx = false ∧ hasNativeTransfers tx = false) :
    runPipeline resolve tokenMeta cached fetchInfo txs input =
      (earlyExitResponse txs input, []) := by
  have hbg : buildGraph input txs = ⟨[inputNode input], [], false⟩ := by
    unfold buildGraph
    refine foldl_inv (fun st : BuildState => st = ⟨[inputNode input], [], false⟩) _ txs.enum
      (fun s a ha hs => ?_) _ rfl
    obtain ⟨h1, h2⟩ := h a.2 (snd_mem_enum txs a ha)
    rw [hs]
    simp [processOneTx, h1, h2]
  unfold runPipeline processTransactions
  rw [hbg]
  rfl

/-- Witness for the amended C2 at a concrete input (a transaction with only
`accountData` and no transfer lists). -/
theorem early_exit_no_transfers_witness :
    runPipeline entOracleNone tokOracleNone cacheOracleNone fetchOracleNone
      [txNoTransfers] wInput = (earlyExitResponse [txNoTransfers] wInput, []) :=
  early_exit_no_transfers entOracleNone tokOracleNone cacheOracleNone fetchOracleNone
    [txNoTransfers] wInput (by decide)

theorem lookupA_setA_self (l : List (String × EntityInfo)) (a : String) (e : EntityInfo) :
    lookupA (setA l a e) a = some e := by
  induction l with
  | nil => simp [setA, lookupA]
  | cons kv t ih =>
      obtain ⟨k, v⟩ := kv
      simp only [setA]
      split
      · simp [lookupA]
      · rename_i hk
        simp only [lookupA]
        rw [if_neg hk]
        exact ih

theorem findKnownEntity_isEmpty_false (a : String) (e : EntityInfo)
    (h : findKnownEntity a = some e) : a.isEmpty = false := by
  by_contra hc
  rw [Bool.not_eq_false] at hc
  have ha : a = "" := (String.isEmpty_iff _).mp hc
  rw [ha] at h
  have hnone : findKnownEntity "" = none := by decide
  rw [hnone] at h
  exact Option.noConfusion h

theorem getEntityInfo_mem_hit (sns solscan birdeye jupiter : String → Option EntityInfo)
    (mem redis : List (String × EntityInfo)) (redisOn : Bool) (a : String) (e : EntityInfo)
    (hemptyF : a.isEmpty = false) (hm : lookupA mem a = some e) :
    getEntityInfo sns solscan birdeye jupiter mem redisOn redis (some a) =
      ⟨some e, mem, redis, []⟩ := by
  simp [getEntityInfo, hemptyF, hm]

theorem getEntityInfo_some_not_empty (sns solscan birdeye jupiter : String → Option EntityInfo)
    (mem redis : List (String × EntityInfo)) (redisOn : Bool) (a : String) (e : EntityInfo)
    (h : (getEntityInfo sns solscan birdeye jupiter mem redisOn redis (some a)).result
      = some e) : a.isEmpty = false := by
  by_contra hc
  rw [Bool.not_eq_false] at hc
  simp [getEntityInfo, hc] at h

theorem getEntityInfo_result_mem (sns solscan birdeye jupiter : String → Option EntityInfo)
    (mem redis : List (String × EntityInfo)) (redisOn : Bool) (a : String) (e : EntityInfo)
    (h : (getEntityInfo sns solscan birdeye jupiter mem redisOn redis (some a)).result
      = some e) :
    lookupA (getEntityInfo sns solscan birdeye jupiter mem redisOn redis (some a)).mem a
      = some e := by
  have hemptyF := getEntityInfo_some_not_empty sns solscan birdeye jupiter mem redis
    redisOn a e h
  cases hm : lookupA mem a with
  | some e0 =>
      simp [getEntityInfo, hemptyF, hm] at h
      simp [getEntityInfo, hemptyF, hm, h]
  | none =>
      cases hr : (if redisOn then lookupA redis a else none) with
      | some e0 =>
          simp [getEntityInfo, hemptyF, hm, hr] at h
          simp [getEntityInfo, hemptyF, hm, hr, h, lookupA_setA_self]
      | none =>
          cases hreg : findKnownEntity a with
          | some e0 =>
              simp [getEntityInfo, hemptyF, hm, hr, hreg] at h
              simp [getEntityInfo, hemptyF, hm, hr, hreg, h, lookupA_setA_self]
          | none =>
              cases hsns : (if a.length ≤ 50 then sns a else none) with
              | some e0 =>
                  simp [getEntityInfo, hemptyF, hm, hr, hreg, hsns] at h
                  simp [getEntityInfo, hemptyF, hm, hr, hreg, hsns, h, lookupA_setA_self]
              | none =>
                  cases hsol : solscan a with
                  | some e0 =>
                      simp [getEntityInfo, hemptyF, hm, hr, hreg, hsns, hsol] at h
                      simp [getEntityInfo, hemptyF, hm, hr, hreg, hsns, hsol, h,
                        lookupA_setA_self]
                  | none =>
                      cases hbir : birdeye a with
                      | some e0 =>
                          simp [getEntityInfo, hemptyF, hm, hr, hreg, hsns, hsol, hbir]
                            at h
                          simp [getEntityInfo, hemptyF, hm, hr, hreg, hsns, hsol, hbir,
                            h, lookupA_setA_self]
                      | none =>
                          cases hjup : jupiter a with
                          | some e0 =>
                              simp [getEntityInfo, hemptyF, hm, hr, hreg, hsns, hsol,
                                hbir, hjup] at h
                              simp [getEntityInfo, hemptyF, hm, hr, hreg, hsns, hsol,
                                hbir, hjup, h, lookupA_setA_self]
                          | none =>
                              simp [getEntityInfo, hemptyF, hm, hr, hreg, hsns, hsol,
                                hbir, hjup] at h

theorem getEntityInfo_null_state (sns solscan birdeye jupiter : String → Option EntityInfo)
    (mem redis : List (String × EntityInfo)) (redisOn : Bool) (a : String)
    (h : (getEntityInfo sns solscan birdeye jupiter mem redisOn redis (some a)).result
      = none) :
    (getEntityInfo sns solscan birdeye jupiter mem redisOn redis (some a)).mem = mem ∧
    (getEntityInfo sns solscan birdeye jupiter mem redisOn redis (some a)).redis = redis := by
  by_cases hempty : a.isEmpty = true
  · simp [getEntityInfo, hempty]
  · have hemptyF : a.isEmpty = false := Bool.eq_false_iff.mpr hempty
    cases hm : lookupA mem a with
    | some e0 => simp [getEntityInfo, hemptyF, hm]
    | none =>
        cases hr : (if redisOn then lookupA redis a else none) with
        | some e0 => simp [getEntityInfo, hemptyF, hm, hr] at h
        | none =>
            cases hreg : findKnownEntity a with
            | some e0 => simp [getEntityInfo, hemptyF, hm, hr, hreg] at h
            | none =>
                cases hsns : (if a.length ≤ 50 then sns a else none) with
                | some e0 => simp [getEntityInfo, hemptyF, hm, hr, hreg, hsns] at h
                | none =>
                    cases hsol : solscan a with
                    | some e0 =>
                        simp [getEntityInfo, hemptyF, hm, hr, hreg, hsns, hsol] at h
                    | none =>
                        cases hbir : birdeye a with
                        | some e0 =>
                            simp [getEntityInfo, hemptyF, hm, hr, hreg, hsns, hsol,
                              hbir] at h
                        | none =>
                            cases hjup : jupiter a with
                            | some e0 =>
                                simp [getEntityInfo, hemptyF, hm, hr, hreg, hsns,
                                  hsol, hbir, hjup] at h
                            | none =>
                                simp [getEntityInfo, hemptyF, hm, hr, hreg, hsns,
                                  hsol, hbir, hjup]

/-- C4: cascade short-circuit on the static registry — an address with an
exact registry match never causes any external lookup service to be
invoked, and (when not already cached) resolves to the registry
annotation. -/
theorem registry_hit_no_external (sns solscan birdeye jupiter : String → Option EntityInfo)
    (mem redis : List (String × EntityInfo)) (redisOn : Bool) (a : String) (e : EntityInfo)
    (hreg : findKnownEntity a = some e) :
    (getEntityInfo sns solscan birdeye jupiter mem redisOn redis (some a)).calls = [] ∧
    (lookupA mem a = none → (if redisOn then lookupA redis a else none) = none →
      (getEntityInfo sns solscan birdeye jupiter mem redisOn redis (some a)).result
        = some e) := by
  have hemptyF := findKnownEntity_isEmpty_false a e hreg
  constructor
  · cases hm : lookupA mem a with
    | some e0 => simp [getEntityInfo, hemptyF, hm]
    | none =>
        cases hr : (if redisOn then lookupA redis a else none) with
        | some e0 => simp [getEntityInfo, hemptyF, hm, hr]
        | none => simp [getEntityInfo, hemptyF, hm, hr, hreg]
  · intro hmem hredis
    simp [getEntityInfo, hemptyF, hmem, hredis, hreg]

/-- Witness for C4 at the Jupiter registry address with empty caches. -/
theorem registry_hit_no_external_witness :
    (getEntityInfo entOracleNone entOracleNone entOracleNone entOracleNone [] false []
      (some jupiterAddr)).calls = [] ∧
    (lookupA ([] : List (String × EntityInfo)) jupiterAddr = none →
      (if false then lookupA ([] : List (String × EntityInfo)) jupiterAddr else none)
        = none →
      (getEntityInfo entOracleNone entOracleNone entOracleNone entOracleNone [] false []
        (some jupiterAddr)).result = some jupiterEntity) :=
  registry_hit_no_external entOracleNone entOracleNone entOracleNone entOracleNone
    [] [] false jupiterAddr jupiterEntity (by decide)

/-- C8 counterexample: resolving an unknown address (registry miss, all
services null) returns null and caches nothing, so resolving it a second
time — with the state left by the first call — contacts all four external
services again instead of performing no network call. -/
theorem null_not_cached_cex :
    (getEntityInfo entOracleNone entOracleNone entOracleNone entOracleNone [] false []
      (some wUnknown)).result = none ∧
    (getEntityInfo entOracleNone entOracleNone entOracleNone entOracleNone
      (getEntityInfo entOracleNone entOracleNone entOracleNone entOracleNone [] false []
        (some wUnknown)).mem
      false
      (getEntityInfo entOracleNone entOracleNone entOracleNone entOracleNone [] false []
        (some wUnknown)).redis
      (some wUnknown)).calls = ["sns", "solscan", "birdeye", "jupiter"] := by
  refine ⟨by decide, by decide⟩

/-- C8 amended: with deterministic lookup services, resolving an address a
second time yields the same annotation; when the first resolution returned
an annotation, the second is served from the in-process cache with no
external calls; but a null first resolution is not cached, so the second
resolution repeats exactly the same external lookups. -/
theorem resolve_twice_cached (sns solscan birdeye jupiter : String → Option EntityInfo)
    (mem redis : List (String × EntityInfo)) (redisOn : Bool) (address : Option String) :
    (getEntityInfo sns solscan birdeye jupiter
        (getEntityInfo sns solscan birdeye jupiter mem redisOn redis address).mem redisOn
        (getEntityInfo sns solscan birdeye jupiter mem redisOn redis address).redis
        address).result
      = (getEntityInfo sns solscan birdeye jupiter mem redisOn redis address).result ∧
    (∀ e, (getEntityInfo sns solscan birdeye jupiter mem redisOn redis address).result
        = some e →
      (getEntityInfo sns solscan birdeye jupiter
        (getEntityInfo sns solscan birdeye jupiter mem redisOn redis address).mem redisOn
        (getEntityInfo sns solscan birdeye jupiter mem redisOn redis address).redis
        address).calls = []) ∧
    ((getEntityInfo sns solscan birdeye jupiter mem redisOn redis address).result = none →
      (getEntityInfo sns solscan birdeye jupiter
        (getEntityInfo sns solscan birdeye jupiter mem redisOn redis address).mem redisOn
        (getEntityInfo sns solscan birdeye jupiter mem redisOn redis address).redis
        address).calls
      = (getEntityInfo sns solscan birdeye jupiter mem redisOn redis address).calls) := by
  cases address with
  | none => exact ⟨rfl, fun e he => Option.noConfusion he, fun _ => rfl⟩
  | some a =>
      cases hres : (getEntityInfo sns solscan birdeye jupiter mem redisOn redis
        (some a)).result with
      | some e =>
          have hemptyF := getEntityInfo_some_not_empty sns solscan birdeye jupiter mem
            redis redisOn a e hres
          have hmem2 := getEntityInfo_result_mem sns solscan birdeye jupiter mem redis
            redisOn a e hres
          have hsecond := getEntityInfo_mem_hit sns solscan birdeye jupiter
            (getEntityInfo sns solscan birdeye jupiter mem redisOn redis (some a)).mem
            (getEntityInfo sns solscan birdeye jupiter mem redisOn redis (some a)).redis
            redisOn a e hemptyF hmem2
          rw [hsecond]
          exact ⟨rfl, fun e2 he2 => rfl, fun hn => Option.noConfusion hn⟩
      | none =>
          obtain ⟨hmu, hru⟩ := getEntityInfo_null_state sns solscan birdeye jupiter mem
            redis redisOn a hres
          rw [hmu, hru]
          exact ⟨hres, fun e2 he2 => Option.noConfusion he2, fun _ => rfl⟩

/-- Witness for the amended C8 at a concrete input (the Jupiter registry
address, empty caches, null services). -/
theorem resolve_twice_cached_witness :
    (getEntityInfo entOracleNone entOracleNone entOracleNone entOracleNone
        (getEntityInfo entOracleNone entOracleNone entOracleNone entOracleNone [] false []
          (some jupiterAddr)).mem false
        (getEntityInfo entOracleNone entOracleNone entOracleNone entOracleNone [] false []
          (some jupiterAddr)).redis
        (some jupiterAddr)).result
      = (getEntityInfo entOracleNone entOracleNone entOracleNone entOracleNone [] false []
          (some jupiterAddr)).result ∧
    (∀ e, (getEntityInfo entOracleNone entOracleNone entOracleNone entOracleNone [] false
          [] (some jupiterAddr)).result = some e →
      (getEntityInfo entOracleNone entOracleNone entOracleNone entOracleNone
        (getEntityInfo entOracleNone entOracleNone entOracleNone entOracleNone [] false []
          (some jupiterAddr)).mem false
        (getEntityInfo entOracleNone entOracleNone entOracleNone entOracleNone [] false []
          (some jupiterAddr)).redis
        (some jupiterAddr)).calls = []) ∧
    ((getEntityInfo entOracleNone entOracleNone entOracleNone entOracleNone [] false []
        (some jupiterAddr)).result = none →
      (getEntityInfo entOracleNone entOracleNone entOracleNone entOracleNone
        (getEntityInfo entOracleNone entOracleNone entOracleNone entOracleNone [] false []
          (some jupiterAddr)).mem false
        (getEntityInfo entOracleNone entOracleNone entOracleNone entOracleNone [] false []
          (some jupiterAddr)).redis
        (some jupiterAddr)).calls
      = (getEntityInfo entOracleNone entOracleNone entOracleNone entOracleNone [] false []
          (some jupiterAddr)).calls) :=
  resolve_twice_cached entOracleNone entOracleNone entOracleNone entOracleNone [] []
    false (some jupiterAddr)

/-- C9: the rate limiter fails open — when no limiter is configured or the
backing store's limit call throws, `checkRateLimit` returns an allowed
result; its return type (`RateLimitResult`, not an error) embeds that a
store failure is never propagated to the caller as a request failure. -/
theorem ratelimit_fails_open (configured : Bool)
    (limitCall : Except String RateLimitResult) (now : Int)
    (h : configured = false ∨ ∃ msg, limitCall = Except.error msg) :
    (checkRateLimit configured limitCall now).success = true := by
  unfold checkRateLimit
  rcases h with hc | ⟨msg, hc⟩
  · rw [hc]
    rfl
  · rw [hc]
    cases configured <;> rfl

/-- Witness for C9: a throwing store still admits the request. -/
theorem ratelimit_fails_open_witness :
    (checkRateLimit true (Except.error "redis unavailable") 0).success = true :=
  ratelimit_fails_open true (Except.error "redis unavailable") 0
    (Or.inr ⟨"redis unavailable", rfl⟩)
